import Mathlib

/-!
Verification development for the deimos-router rule evaluation and chaining
engine.  The definitions below are a shallow embedding of the Python sources
under src/deimos_router: the Decision and ExplanationEntry value objects and
the Rule variants (rules/base.py, rules/task_rule.py, rules/code_rule.py,
rules/message_length_rule.py, rules/conversation_context_rule.py,
rules/natural_language_rule.py, rules/auto_task_rule.py,
rules/code_language_rule.py) together with the Router chain-resolution
algorithm (router.py).  Python heap references between Rule objects are
modelled by natural-number object identifiers resolved through a total
environment, mirroring the fact that a Python object reference always points
to a live object.  External collaborators (the tiktoken tokenizer and the
delegated LLM classifier calls) are modelled as function parameters carried
by the rule values, since they live outside this repository.
-/

namespace Deimos

/-- Identity of a Rule object on the Python heap. -/
abbrev RuleId : Type := Nat

/-- Value stored under the content key of a message dict: either a Python
string or some non-string value (rules tolerate and skip the latter). -/
inductive ContentV where
  | str (s : String)
  | nonstr
deriving DecidableEq

/-- One element of the messages list of a request: either a dict (with an
optional role key and an optional content key) or a non-dict element, which
every extraction loop skips. -/
inductive MsgItem where
  | msg (role : Option String) (content : Option ContentV)
  | notDict
deriving DecidableEq

/-- Request payload handed to Router.select_model and Rule.evaluate: the
messages list (request_data.get with default empty list), the optional task
field, and the remaining caller-supplied fields, which no rule reads. -/
structure Request where
  messages : List MsgItem
  task : Option String
  extra : List (String × String)
deriving DecidableEq

/-- Value side of a Decision: Python stores Union of str, Rule and None, and
the accessors dispatch on isinstance, so a string is always a model and only
an actual Rule object is a rule reference (rules/base.py, Decision). -/
inductive DValue where
  | str (s : String)
  | rule (r : RuleId)
  | noneV
deriving DecidableEq

/-- Decision returned by Rule.evaluate: a value plus a diagnostic trigger. -/
structure Decision where
  value : DValue
  trigger : Option String
deriving DecidableEq

/-- Decision.is_model: true exactly when the stored value is a string. -/
def Decision.is_model (d : Decision) : Bool :=
  match d.value with
  | .str _ => true
  | _ => false

/-- Decision.is_rule: true exactly when the stored value is a Rule object. -/
def Decision.is_rule (d : Decision) : Bool :=
  match d.value with
  | .rule _ => true
  | _ => false

/-- Decision.is_none: true when no decision was made. -/
def Decision.is_none (d : Decision) : Bool :=
  match d.value with
  | .noneV => true
  | _ => false

/-- Decision.get_model accessor. -/
def Decision.get_model (d : Decision) : Option String :=
  match d.value with
  | .str s => some s
  | _ => none

/-- Decision.get_rule accessor. -/
def Decision.get_rule (d : Decision) : Option RuleId :=
  match d.value with
  | .rule r => some r
  | _ => none

/-- Target of a rule mapping entry: Python stores either a model-name string
or a direct reference to another Rule object. -/
inductive Target where
  | modelT (s : String)
  | ruleT (r : RuleId)
deriving DecidableEq

/-- Conversion of a mapping target to a Decision value. -/
def Target.toDValue : Target → DValue
  | .modelT s => DValue.str s
  | .ruleT r => DValue.rule r

/-- Conversion of an optional target (for rules whose default may be None). -/
def dvalOfOpt : Option Target → DValue
  | none => DValue.noneV
  | some t => t.toDValue

/-- ExplanationEntry from rules/base.py: one row of the explanation trail. -/
structure Entry where
  rule_type : String
  rule_name : String
  rule_trigger : String
  decision : String
deriving DecidableEq

/-- ExplanationEntry constructor: the stored trigger is the Python expression
rule_trigger or the literal string None, so both an absent trigger and an
empty-string trigger are stored as the four-letter literal. -/
def mk_entry (rule_type rule_name : String) (trigger : Option String)
    (decision : String) : Entry :=
  ⟨rule_type, rule_name,
    (match trigger with
     | none => "None"
     | some s => if s.isEmpty then "None" else s), decision⟩

/-- Truthiness of a Python Optional string: None and the empty string are
falsy, every other string is truthy. -/
def optTruthy : Option String → Bool
  | none => false
  | some s => !s.isEmpty

/-!
Regular-expression engine.

CodeRule compiles a fixed library of Python re patterns and counts the
findall matches of each.  The engine below implements the fragment of Python
re semantics those patterns use: literals, character classes, the dot,
ordered alternation, greedy and lazy star, word boundaries and the MULTILINE
aware anchors, with the IGNORECASE, MULTILINE and DOTALL flags.  Matching is
backtracking leftmost-first exactly as in CPython; findall scans from the
left, restarting after the end of each match and advancing one position
after an empty match.  Fuel arguments bound the recursion; the bounds are
chosen large enough that they are never hit on the evaluated inputs.
-/

/-- Word character in the sense of the re escape for w (ASCII inputs). -/
def isWordChar (c : Char) : Bool :=
  (('a' ≤ c && c ≤ 'z') || ('A' ≤ c && c ≤ 'Z') ||
   ('0' ≤ c && c ≤ '9') || c == '_')

/-- Whitespace character in the sense of the re escape for s. -/
def isSpaceChar (c : Char) : Bool :=
  c == ' ' || c == '\t' || c == '\n' || c == '\x0d' ||
  c == '\x0b' || c == '\x0c'

/-- Digit character in the sense of the re escape for d. -/
def isDigitChar (c : Char) : Bool :=
  '0' ≤ c && c ≤ '9'

/-- Item of a character class. -/
inductive CCls where
  | one (c : Char)
  | rng (lo hi : Char)
  | wordC
  | spaceC
  | digitC

/-- Membership of a character in one class item, honouring IGNORECASE. -/
def cclsMatches (icase : Bool) (it : CCls) (d : Char) : Bool :=
  match it with
  | .one c => if icase then c.toLower == d.toLower else c == d
  | .rng lo hi =>
      (lo ≤ d && d ≤ hi) ||
      (icase && ((lo ≤ d.toLower && d.toLower ≤ hi) ||
                 (lo ≤ d.toUpper && d.toUpper ≤ hi)))
  | .wordC => isWordChar d
  | .spaceC => isSpaceChar d
  | .digitC => isDigitChar d

/-- Compilation flags of one pattern. -/
structure Flags where
  icase : Bool := false
  mline : Bool := false
  dotall : Bool := false

/-- Abstract syntax of the supported regular-expression fragment. -/
inductive RE where
  | eps
  | lit (c : Char)
  | cls (neg : Bool) (items : List CCls)
  | dot
  | seq (a b : RE)
  | alt (a b : RE)
  | star (r : RE) (lazy : Bool)
  | wordB
  | bol
  | eol

/-- Node count of a pattern, used only to size the matching fuel. -/
def reSize : RE → Nat
  | .eps => 1
  | .lit _ => 1
  | .cls _ _ => 1
  | .dot => 1
  | .seq a b => 1 + reSize a + reSize b
  | .alt a b => 1 + reSize a + reSize b
  | .star r _ => 1 + reSize r
  | .wordB => 1
  | .bol => 1
  | .eol => 1

/-- Whether the character at an index is a word character (false outside). -/
def isWordAt (cs : List Char) (i : Nat) : Bool :=
  match cs.get? i with
  | some c => isWordChar c
  | none => false

/-- Backtracking matcher in continuation-passing style: tries to match the
pattern at index i of cs and calls the continuation with the end index of
each candidate in backtracking order, returning the first success.
Alternation is ordered, star is greedy unless marked lazy, both exactly as
in CPython.  The guard j == i inside star stops vacuous repetitions. -/
def reMatch (fl : Flags) (cs : List Char) :
    Nat → RE → Nat → (Nat → Option Nat) → Option Nat
  | 0, _, _, _ => none
  | fuel+1, r, i, k =>
    match r with
    | .eps => k i
    | .lit c =>
      match cs.get? i with
      | some d =>
          if (if fl.icase then c.toLower == d.toLower else c == d)
          then k (i+1) else none
      | none => none
    | .cls neg items =>
      match cs.get? i with
      | some d =>
          let m := items.any (fun it => cclsMatches fl.icase it d)
          if (if neg then !m else m) then k (i+1) else none
      | none => none
    | .dot =>
      match cs.get? i with
      | some d => if fl.dotall || d != '\n' then k (i+1) else none
      | none => none
    | .seq a b => reMatch fl cs fuel a i (fun j => reMatch fl cs fuel b j k)
    | .alt a b =>
      match reMatch fl cs fuel a i k with
      | some e => some e
      | none => reMatch fl cs fuel b i k
    | .star r1 lz =>
      if lz then
        match k i with
        | some e => some e
        | none =>
            reMatch fl cs fuel r1 i
              (fun j => if j == i then none
                        else reMatch fl cs fuel (RE.star r1 lz) j k)
      else
        match reMatch fl cs fuel r1 i
                (fun j => if j == i then none
                          else reMatch fl cs fuel (RE.star r1 lz) j k) with
        | some e => some e
        | none => k i
    | .wordB =>
      let prevW := if i == 0 then false else isWordAt cs (i-1)
      if prevW != isWordAt cs i then k i else none
    | .bol =>
      if i == 0 ||
         (fl.mline &&
          (match cs.get? (i-1) with | some c => c == '\n' | none => false))
      then k i else none
    | .eol =>
      let atEnd := i == cs.length
      let beforeNl :=
        match cs.get? i with | some c => c == '\n' | none => false
      if (if fl.mline then atEnd || beforeNl
          else atEnd || (beforeNl && i + 1 == cs.length))
      then k i else none

/-- Fuel that is ample for matching one pattern at one position. -/
def matchFuel (r : RE) (cs : List Char) : Nat :=
  (reSize r + 2) * (cs.length + 2) + 100

/-- First match of the pattern at exactly index i: its end index. -/
def matchAt (fl : Flags) (r : RE) (cs : List Char) (i : Nat) : Option Nat :=
  reMatch fl cs (matchFuel r cs) r i some

/-- Scanning loop of findall: at each position try to match; on success
count one and resume at the match end (one further for an empty match), on
failure advance one position. -/
def searchCountFrom (fl : Flags) (r : RE) (cs : List Char) :
    Nat → Nat → Nat
  | 0, _ => 0
  | fuel+1, pos =>
    if pos > cs.length then 0
    else
      match matchAt fl r cs pos with
      | some e =>
          1 + searchCountFrom fl r cs fuel (if e == pos then pos + 1 else e)
      | none => searchCountFrom fl r cs fuel (pos + 1)

/-- Number of findall matches of a compiled pattern in a string. -/
def findallCount (p : Flags × RE) (s : String) : Nat :=
  let cs := s.toList
  searchCountFrom p.1 p.2 cs (cs.length + 2) 0

/-- Sequencing of a pattern list. -/
def rseq (l : List RE) : RE := l.foldr RE.seq RE.eps

/-- Literal string pattern. -/
def rstr (s : String) : RE := rseq (s.toList.map RE.lit)

/-- Ordered alternation of a nonempty pattern list. -/
def ralt : List RE → RE
  | [] => RE.eps
  | [r] => r
  | r :: rest => RE.alt r (ralt rest)

/-- Ordered alternation of literal words. -/
def raltW (l : List String) : RE := ralt (l.map rstr)

/-- Greedy plus. -/
def rplus (r : RE) : RE := RE.seq r (RE.star r false)

/-- Greedy option. -/
def ropt (r : RE) : RE := RE.alt r RE.eps

/-- Class of a single word character. -/
def wcls : RE := RE.cls false [CCls.wordC]

/-- Class of a single whitespace character. -/
def scls : RE := RE.cls false [CCls.spaceC]

/-- Class of a single digit character. -/
def dcls : RE := RE.cls false [CCls.digitC]

/-- One or more word characters. -/
def wplus : RE := rplus wcls

/-- Zero or more whitespace characters. -/
def sstar : RE := RE.star scls false

/-- One or more whitespace characters. -/
def splus : RE := rplus scls

/-- One or more digit characters. -/
def dplus : RE := rplus dcls

/-- Greedy dot-star. -/
def dotstar : RE := RE.star RE.dot false

/-- Lazy dot-star. -/
def dotstarL : RE := RE.star RE.dot true

/-- Class matching a double or single quote. -/
def qcls : RE := RE.cls false [CCls.one '"', CCls.one '\'']

/-- IGNORECASE flag set. -/
def fIC : Flags := { icase := true }

/-- MULTILINE flag set. -/
def fM : Flags := { mline := true }

/-- MULTILINE and DOTALL flags set. -/
def fMD : Flags := { mline := true, dotall := true }

end Deimos

namespace Deimos

/-!
Transcription of the compiled pattern library of CodeRule
(rules/code_rule.py, method compile patterns, lines 26 to 117).
Each list element below embeds one re.compile call, in source order; the
comment on each element names the source line of the original pattern.
-/

/-- Code-detection pattern family of CodeRule, in source order. -/
def code_patterns : List (Flags × RE) := [
  -- line 31: word-boundary, one of def function func fn, s+ w+ s* lparen
  (fIC, rseq [RE.wordB, raltW ["def", "function", "func", "fn"],
              splus, wplus, sstar, RE.lit '(']),
  -- line 32: w+ s* lparen [not rparen]* rparen s* lbrace
  (fIC, rseq [wplus, sstar, RE.lit '(', RE.star (RE.cls true [CCls.one ')']) false,
              RE.lit ')', sstar, RE.lit '{']),
  -- line 33: w+ lparen [not rparen]* rparen s* colon
  (fIC, rseq [wplus, RE.lit '(', RE.star (RE.cls true [CCls.one ')']) false,
              RE.lit ')', sstar, RE.lit ':']),
  -- line 36: word-boundary, control keyword, s* lparen
  (fIC, rseq [RE.wordB,
              raltW ["if", "else", "elif", "while", "for", "switch", "case",
                     "try", "catch", "finally", "with"],
              sstar, RE.lit '(']),
  -- line 37: word-boundary, control keyword, s+
  (fIC, rseq [RE.wordB,
              raltW ["if", "else", "elif", "while", "for", "switch", "case",
                     "try", "catch", "finally", "with"],
              splus]),
  -- line 40: word-boundary, declaration keyword, s+ w+
  (fIC, rseq [RE.wordB,
              raltW ["var", "let", "const", "int", "string", "bool", "float",
                     "double", "char", "long", "short"],
              splus, wplus]),
  -- line 41: w+ s* equals s* optional (new s+) w+ lparen
  (fIC, rseq [wplus, sstar, RE.lit '=', sstar,
              ropt (rseq [rstr "new", splus]), wplus, RE.lit '(']),
  -- line 42: w+ s* colon s* w+ s* equals
  (fIC, rseq [wplus, sstar, RE.lit ':', sstar, wplus, sstar, RE.lit '=']),
  -- line 45: word-boundary, type keyword, s+ w+
  (fIC, rseq [RE.wordB,
              raltW ["class", "struct", "interface", "enum", "type"],
              splus, wplus]),
  -- line 46: word-boundary, modifier keyword, s+
  (fIC, rseq [RE.wordB,
              raltW ["public", "private", "protected", "static", "final",
                     "abstract"],
              splus]),
  -- line 49: word-boundary, import keyword (incl hash-include), s+
  (fIC, rseq [RE.wordB,
              raltW ["import", "from", "include", "require", "using",
                     "#include"],
              splus]),
  -- line 50: from s+ w+ s+ import
  (fIC, rseq [rstr "from", splus, wplus, splus, rstr "import"]),
  -- line 53: comparison or compound assignment or doubled operator
  (fIC, ralt [rseq [RE.cls false [CCls.one '=', CCls.one '!', CCls.one '<',
                                  CCls.one '>'], RE.lit '='],
              rseq [RE.cls false [CCls.one '+', CCls.one '-', CCls.one '*',
                                  CCls.one '/', CCls.one '%'], RE.lit '='],
              rstr "++", rstr "--", rstr "&&", rstr "||",
              rstr "<<", rstr ">>"]),
  -- line 54: arrow or fat arrow or ellipsis or double colon
  (fIC, ralt [rstr "=>", rstr "->", rstr "...", rstr "::"]),
  -- line 57 (MULTILINE): lbrace s* eol
  (fM, rseq [RE.lit '{', sstar, RE.eol]),
  -- line 58 (MULTILINE): bol s* rbrace
  (fM, rseq [RE.bol, sstar, RE.lit '}']),
  -- line 59 (MULTILINE): bol s* w+ s* lparen [not rparen]* rparen s* lbrace
  (fM, rseq [RE.bol, sstar, wplus, sstar, RE.lit '(',
             RE.star (RE.cls true [CCls.one ')']) false, RE.lit ')',
             sstar, RE.lit '{']),
  -- line 62: word-boundary return s+ (w+ | quoted | literal | d+)
  (fIC, rseq [RE.wordB, rstr "return", splus,
              ralt [wplus, rseq [qcls, dotstar, qcls], rstr "null",
                    rstr "true", rstr "false", rstr "None", dplus]]),
  -- line 63: print call or console log call or System out print
  (fIC, ralt [rseq [RE.wordB, rstr "print", sstar, RE.lit '('],
              rseq [rstr "console.log", sstar, RE.lit '('],
              rstr "System.out.print"]),
  -- line 64: throw new w+ or raise w+
  (fIC, ralt [rseq [RE.wordB, rstr "throw", splus, rstr "new", splus, wplus],
              rseq [rstr "raise", splus, wplus]]),
  -- line 67: SELECT s+ .* s+ FROM s+ w+
  (fIC, rseq [RE.wordB, rstr "SELECT", splus, dotstar, splus,
              rstr "FROM", splus, wplus]),
  -- line 68: INSERT s+ INTO s+ w+
  (fIC, rseq [RE.wordB, rstr "INSERT", splus, rstr "INTO", splus, wplus]),
  -- line 69: UPDATE s+ w+ s+ SET s+
  (fIC, rseq [RE.wordB, rstr "UPDATE", splus, wplus, splus,
              rstr "SET", splus]),
  -- line 70: DELETE s+ FROM s+ w+
  (fIC, rseq [RE.wordB, rstr "DELETE", splus, rstr "FROM", splus, wplus]),
  -- line 71: CREATE s+ TABLE s+ w+
  (fIC, rseq [RE.wordB, rstr "CREATE", splus, rstr "TABLE", splus, wplus]),
  -- line 72: word-boundary, SQL keyword, word-boundary
  (fIC, rseq [RE.wordB,
              raltW ["SELECT", "INSERT", "UPDATE", "DELETE", "CREATE",
                     "DROP", "ALTER", "FROM", "WHERE", "JOIN",
                     "GROUP BY", "ORDER BY"],
              RE.wordB]),
  -- line 75: langle optional slash letter [not rangle]* rangle
  (fIC, rseq [RE.lit '<', ropt (RE.lit '/'),
              RE.cls false [CCls.rng 'a' 'z', CCls.rng 'A' 'Z'],
              RE.star (RE.cls true [CCls.one '>']) false, RE.lit '>']),
  -- line 76: langle w+ [not rangle]* slash rangle
  (fIC, rseq [RE.lit '<', wplus, RE.star (RE.cls true [CCls.one '>']) false,
              rstr "/>"]),
  -- line 79: lbrace s* quote? w+ quote? s* colon s* quote? [not comma rbrace]+ quote?
  (fIC, rseq [RE.lit '{', sstar, ropt qcls, wplus, ropt qcls, sstar,
              RE.lit ':', sstar, ropt qcls,
              rplus (RE.cls true [CCls.one ',', CCls.one '}']), ropt qcls]),
  -- line 82 (MULTILINE): bol s* dollar-or-hash s+ w+
  (fM, rseq [RE.bol, sstar, RE.cls false [CCls.one '$', CCls.one '#'],
             splus, wplus]),
  -- line 83: word-boundary, shell command name, s+
  (fIC, rseq [RE.wordB,
              raltW ["cd", "ls", "mkdir", "rm", "cp", "mv", "grep", "awk",
                     "sed", "curl", "wget", "git", "npm", "pip", "docker"],
              splus]),
  -- line 86 (MULTILINE): bol s* w+ s* equals s* quote? [not quote newline]+ quote? eol
  (fM, rseq [RE.bol, sstar, wplus, sstar, RE.lit '=', sstar, ropt qcls,
             rplus (RE.cls true [CCls.one '"', CCls.one '\'', CCls.one '\n']),
             ropt qcls, RE.eol]),
  -- line 87 (MULTILINE): bol s* lbracket w+ rbracket
  (fM, rseq [RE.bol, sstar, RE.lit '[', wplus, RE.lit ']']),
  -- line 90 (MULTILINE and DOTALL): line comment or block comment shapes
  (fMD, ralt [rseq [rstr "//", dotstar, RE.eol],
              rseq [rstr "/*", dotstarL, rstr "*/"],
              rseq [RE.lit '#', dotstar, RE.eol],
              rseq [rstr "<!--", dotstarL, rstr "-->"]]),
  -- line 93 (MULTILINE): bol four-or-more spaces w+, or bol tabs w+
  (fM, ralt [rseq [RE.bol, scls, scls, scls, scls, RE.star scls false, wplus],
             rseq [RE.bol, rplus (RE.lit '\t'), wplus]]),
  -- line 96: word-boundary, Error or Exception or Traceback or at w+ dot w+
  (fIC, rseq [RE.wordB,
              ralt [rstr "Error", rstr "Exception", rstr "Traceback",
                    rseq [rstr "at", splus, wplus, RE.lit '.', wplus]]]),
  -- line 97: File s+ quoted path comma s+ line s+ d+
  (fIC, rseq [rstr "File", splus, RE.lit '"',
              rplus (RE.cls true [CCls.one '"']), RE.lit '"', RE.lit ',',
              splus, rstr "line", splus, dplus]),
  -- line 100: word-boundary, VCS verb, s+ w+
  (fIC, rseq [RE.wordB,
              raltW ["commit", "branch", "merge", "pull", "push", "clone"],
              splus, wplus]),
  -- line 103: word-boundary, package manager install command
  (fIC, rseq [RE.wordB,
              ralt [rseq [rstr "npm", splus, rstr "install"],
                    rseq [rstr "pip", splus, rstr "install"],
                    rseq [rstr "composer", splus, rstr "install"],
                    rseq [rstr "gem", splus, rstr "install"]]])]

/-- Natural-language cue pattern family of CodeRule, in source order. -/
def not_code_patterns : List (Flags × RE) := [
  -- line 109: word-boundary, discourse connective word, word-boundary
  (fIC, rseq [RE.wordB,
              raltW ["the", "and", "or", "but", "however", "therefore",
                     "because", "although", "while", "during", "after",
                     "before", "since", "until", "unless", "if", "when",
                     "where", "why", "how", "what", "who", "which", "that",
                     "this", "these", "those", "some", "many", "few",
                     "several", "all", "most", "each", "every", "any", "no",
                     "none", "both", "either", "neither"],
              RE.wordB]),
  -- line 112: question mark then question or auxiliary word
  (fIC, rseq [RE.lit '?', dotstar,
              raltW ["how", "what", "why", "when", "where", "who", "which",
                     "can", "could", "would", "should", "will", "do",
                     "does", "did", "is", "are", "was", "were"]]),
  -- line 113: question or auxiliary word then question mark
  (fIC, rseq [raltW ["how", "what", "why", "when", "where", "who", "which",
                     "can", "could", "would", "should", "will", "do",
                     "does", "did", "is", "are", "was", "were"],
              dotstar, RE.lit '?']),
  -- line 116: word-boundary, conversational politeness word, word-boundary
  (fIC, rseq [RE.wordB,
              raltW ["please", "thank", "thanks", "hello", "hi", "hey",
                     "goodbye", "bye", "sorry", "excuse", "help", "assist",
                     "explain", "describe", "tell", "show", "give",
                     "provide"],
              RE.wordB])]

/-- Sum of findall counts over the code pattern family
(CodeRule contains code, lines 170 to 173). -/
def code_matches (s : String) : Nat :=
  (code_patterns.map (fun p => findallCount p s)).sum

/-- Sum of findall counts over the natural-language cue family
(CodeRule contains code, lines 176 to 179). -/
def not_code_matches (s : String) : Nat :=
  (not_code_patterns.map (fun p => findallCount p s)).sum

/-- Decision cascade of CodeRule contains code (lines 186 to 205) as a
function of the two match counts.  The Python float comparison of
code ratio against one half is embedded exactly: for any realistic counts
the double division is exact enough that the comparison agrees with the
rational one, which equals two times cm at least cm plus ncm. -/
def containsCodeCounts (cm ncm : Nat) : Bool :=
  if cm == 0 then false
  else if 4 ≤ cm then true
  else if 5 ≤ ncm && cm < 3 then false
  else if ncm == 0 then decide (2 ≤ cm)
  else decide (cm + ncm ≤ 2 * cm) && decide (2 ≤ cm)

/-- CodeRule contains code on a text. -/
def contains_code (s : String) : Bool :=
  containsCodeCounts (code_matches s) (not_code_matches s)

end Deimos

namespace Deimos

/-!
Rule variants.  The closed set of Rule subclasses is embedded as one
inductive; external collaborators (the tiktoken encoder of
MessageLengthRule and the delegated LLM classifier round-trips of
CodeLanguageRule, NaturalLanguageRule and AutoTaskRule) are not part of this
repository and are carried as function fields: a field of type
String to Option String stands for the result of the corresponding
private detection method on the extracted text, already folded over the
missing-credentials, transport-failure and reply-validation handling that
the Python method performs internally (every failure path returns None).
The mapping dicts are embedded as association lists with unique keys.
-/

/-- Compiled pattern table of CodeLanguageRule: per language a list of
weighted patterns, as built by compile language patterns. -/
def LangTable : Type := List (String × List ((Flags × RE) × Nat))

/-- Closed variant set of Rule subclasses with their configuration. -/
inductive RuleImpl where
  | taskR (name : String) (triggers : List (String × Target))
  | codeR (name : String) (code notCode : Target)
  | codeLangR (name : String) (mappings : List (String × Target))
      (default : Option Target) (enableLLM : Bool) (table : LangTable)
      (detectLLM : String → List String → Option String)
  | natLangR (name : String) (mappings : List (String × Target))
      (default : Option Target) (detect : String → Option String)
  | autoTaskR (name : String) (triggers : List (String × Target))
      (default : Option Target) (detect : String → Option String)
  | msgLenR (name : String) (short_threshold long_threshold : Int)
      (short_model medium_model long_model : Target) (tok : String → Nat)
  | convCtxR (name : String) (new_threshold deep_threshold : Int)
      (new_model developing_model deep_model : Target)

/-- Rule.get_rule_type: the Python class name of the variant. -/
def rule_type_name : RuleImpl → String
  | .taskR .. => "TaskRule"
  | .codeR .. => "CodeRule"
  | .codeLangR .. => "CodeLanguageRule"
  | .natLangR .. => "NaturalLanguageRule"
  | .autoTaskR .. => "AutoTaskRule"
  | .msgLenR .. => "MessageLengthRule"
  | .convCtxR .. => "ConversationContextRule"

/-- Name attribute of a rule. -/
def rule_name : RuleImpl → String
  | .taskR n _ => n
  | .codeR n _ _ => n
  | .codeLangR n _ _ _ _ _ => n
  | .natLangR n _ _ _ => n
  | .autoTaskR n _ _ _ => n
  | .msgLenR n _ _ _ _ _ _ => n
  | .convCtxR n _ _ _ _ _ => n

/-- Extraction loop shared by CodeRule, CodeLanguageRule,
NaturalLanguageRule and AutoTaskRule: the string contents of every message
dict that has a content key holding a string, in order, any role. -/
def extract_texts : List MsgItem → List String
  | [] => []
  | .msg _ (some (.str s)) :: rest => s :: extract_texts rest
  | _ :: rest => extract_texts rest

/-- Role-agnostic extract text content: newline join of the parts. -/
def extract_text_content (req : Request) : String :=
  String.intercalate "\n" (extract_texts req.messages)

/-- Extraction loop of MessageLengthRule: only messages whose role
(defaulting to user when the key is absent) is the user role. -/
def extract_user_texts : List MsgItem → List String
  | [] => []
  | .msg role (some (.str s)) :: rest =>
      if role.getD "user" == "user" then s :: extract_user_texts rest
      else extract_user_texts rest
  | _ :: rest => extract_user_texts rest

/-- MessageLengthRule count tokens: zero for the empty text, otherwise the
length of the tokenizer encoding of the text. -/
def count_tokens (tok : String → Nat) (text : String) : Nat :=
  if text.isEmpty then 0 else tok text

/-- ConversationContextRule analyze conversation context, restricted to the
two fields its evaluate reads: the count of messages carrying string
content and their total character count. -/
def analyze_conversation : List MsgItem → Nat × Nat
  | [] => (0, 0)
  | .msg _ (some (.str s)) :: rest =>
      let a := analyze_conversation rest
      (a.1 + 1, a.2 + s.length)
  | _ :: rest => analyze_conversation rest

/-- Score of one language in detect language regex: the weighted sum of
findall counts of its patterns. -/
def pattern_score (pats : List ((Flags × RE) × Nat)) (text : String) : Nat :=
  (pats.map (fun pw => findallCount pw.1 text * pw.2)).sum

/-- CodeLanguageRule detect language regex (lines 250 to 297): keep
languages with positive score, reject a weak maximum below three, break
ties by the priority order sql, html, css and then alphabetically. -/
def detect_language_regex (table : LangTable) (text : String) :
    Option String :=
  let scores := table.filterMap (fun lp =>
    let sc := pattern_score lp.2 text
    if 0 < sc then some (lp.1, sc) else none)
  match scores with
  | [] => none
  | s0 :: srest =>
    let maxSc := (srest.map Prod.snd).foldl max s0.2
    if maxSc < 3 then none
    else
      let best := (scores.filter (fun ls => ls.2 == maxSc)).map Prod.fst
      if best.length == 1 then best.head?
      else if best.contains "sql" then some "sql"
      else if best.contains "html" then some "html"
      else if best.contains "css" then some "css"
      else
        match best with
        | [] => none
        | h :: t => some (t.foldl (fun a b => if b < a then b else a) h)

/-- LLM fallback branch of CodeLanguageRule.evaluate (lines 224 to 235):
only mapped languages without a regex family are offered to the
classifier, and only a truthy reply that is a mapped key is used. -/
def code_lang_fallback (mappings : List (String × Target))
    (default : Option Target) (enableLLM : Bool) (table : LangTable)
    (detectLLM : String → List String → Option String) (text : String) :
    DValue :=
  if enableLLM && !mappings.isEmpty then
    let unmapped := (mappings.map Prod.fst).filter
      (fun l => (table.lookup l).isNone)
    if !unmapped.isEmpty then
      match detectLLM text unmapped with
      | some l =>
        if !l.isEmpty then
          match mappings.lookup l with
          | some tgt => tgt.toDValue
          | none => dvalOfOpt default
        else dvalOfOpt default
      | none => dvalOfOpt default
    else dvalOfOpt default
  else dvalOfOpt default

/-- Rule.evaluate of every variant, in state-passing form: the result pairs
the Decision with the request as the method leaves it.  No statement of any
evaluate method stores into the request, so each branch returns the request
it received. -/
def evaluateS : RuleImpl → Request → Decision × Request
  | .taskR _ triggers, req =>
    (match req.task with
     | none => (⟨.noneV, none⟩, req)
     | some task =>
       match triggers.lookup task with
       | some tgt => (⟨tgt.toDValue, some task⟩, req)
       | none => (⟨.noneV, some task⟩, req))
  | .codeR _ code notCode, req =>
    let text := extract_text_content req
    if text.isEmpty then (⟨notCode.toDValue, some "no_content"⟩, req)
    else if contains_code text then
      (⟨code.toDValue, some "code_detected"⟩, req)
    else (⟨notCode.toDValue, some "no_code_detected"⟩, req)
  | .codeLangR _ mappings default enableLLM table detectLLM, req =>
    let text := extract_text_content req
    if text.isEmpty then (⟨dvalOfOpt default, none⟩, req)
    else
      (match detect_language_regex table text with
       | some lang =>
         if !lang.isEmpty then
           match mappings.lookup lang with
           | some tgt => (⟨tgt.toDValue, none⟩, req)
           | none =>
             (⟨code_lang_fallback mappings default enableLLM table detectLLM
                 text, none⟩, req)
         else
           (⟨code_lang_fallback mappings default enableLLM table detectLLM
               text, none⟩, req)
       | none =>
         (⟨code_lang_fallback mappings default enableLLM table detectLLM
             text, none⟩, req))
  | .natLangR _ mappings default detect, req =>
    let text := extract_text_content req
    if text.isEmpty then (⟨dvalOfOpt default, some "no_content"⟩, req)
    else
      (match detect text with
       | some lang =>
         if !lang.isEmpty then
           match mappings.lookup lang with
           | some tgt => (⟨tgt.toDValue, some lang⟩, req)
           | none => (⟨dvalOfOpt default, some "no_language_detected"⟩, req)
         else (⟨dvalOfOpt default, some "no_language_detected"⟩, req)
       | none => (⟨dvalOfOpt default, some "no_language_detected"⟩, req))
  | .autoTaskR _ triggers default detect, req =>
    let text := extract_text_content req
    if text.isEmpty then (⟨dvalOfOpt default, none⟩, req)
    else
      (match detect text with
       | some t =>
         if !t.isEmpty then
           match triggers.lookup t with
           | some tgt => (⟨tgt.toDValue, some t⟩, req)
           | none => (⟨dvalOfOpt default, none⟩, req)
         else (⟨dvalOfOpt default, none⟩, req)
       | none => (⟨dvalOfOpt default, none⟩, req))
  | .msgLenR _ short_threshold long_threshold short_model medium_model
      long_model tok, req =>
    let text := String.intercalate "\n" (extract_user_texts req.messages)
    let n := count_tokens tok text
    if (n : Int) < short_threshold then
      (⟨short_model.toDValue,
        some ("short_message_" ++ toString n ++ "_tokens")⟩, req)
    else if (n : Int) < long_threshold then
      (⟨medium_model.toDValue,
        some ("medium_message_" ++ toString n ++ "_tokens")⟩, req)
    else
      (⟨long_model.toDValue,
        some ("long_message_" ++ toString n ++ "_tokens")⟩, req)
  | .convCtxR _ new_threshold deep_threshold new_model developing_model
      deep_model, req =>
    let a := analyze_conversation req.messages
    if (a.1 : Int) < new_threshold then
      (⟨new_model.toDValue,
        some ("new_conversation_" ++ toString a.1 ++ "_messages_" ++
              toString a.2 ++ "_chars")⟩, req)
    else if (a.1 : Int) < deep_threshold then
      (⟨developing_model.toDValue,
        some ("developing_conversation_" ++ toString a.1 ++ "_messages_" ++
              toString a.2 ++ "_chars")⟩, req)
    else
      (⟨deep_model.toDValue,
        some ("deep_conversation_" ++ toString a.1 ++ "_messages_" ++
              toString a.2 ++ "_chars")⟩, req)

/-- Decision component of an evaluation. -/
def evaluate (ru : RuleImpl) (req : Request) : Decision :=
  (evaluateS ru req).1

end Deimos

namespace Deimos

/-!
Validating constructors and threshold mutators.  Python raises ValueError;
the embedding returns Except with the message raised.  The tiktoken lookup
of MessageLengthRule is external to the repository and is passed in as a
partial map from encoding names to token counters; an unknown name makes
the constructor raise, exactly as the except KeyError branch does.
-/

/-- MessageLengthRule constructor (lines 29 to 48): threshold ordering is
validated first, then non-negativity, then the tokenizer encoding. -/
def message_length_rule_init (name : String)
    (short_threshold long_threshold : Int)
    (short_model medium_model long_model : Target)
    (encoding_name : String)
    (get_encoding : String → Option (String → Nat)) :
    Except String RuleImpl :=
  if long_threshold ≤ short_threshold then
    .error "short_threshold must be less than long_threshold"
  else if short_threshold < 0 || long_threshold < 0 then
    .error "thresholds must be non-negative"
  else
    match get_encoding encoding_name with
    | some tok =>
        .ok (.msgLenR name short_threshold long_threshold short_model
              medium_model long_model tok)
    | none => .error ("Unknown encoding: " ++ encoding_name)

/-- MessageLengthRule.update_thresholds (lines 120 to 141): the validation
applied to the effective new pair of thresholds, returning it. -/
def message_length_rule_update_thresholds (cur_short cur_long : Int)
    (short_threshold long_threshold : Option Int) :
    Except String (Int × Int) :=
  let new_short := short_threshold.getD cur_short
  let new_long := long_threshold.getD cur_long
  if new_long ≤ new_short then
    .error "short_threshold must be less than long_threshold"
  else if new_short < 0 || new_long < 0 then
    .error "thresholds must be non-negative"
  else .ok (new_short, new_long)

/-- ConversationContextRule constructor (lines 26 to 38): ordering first,
then both thresholds at least one. -/
def conversation_context_rule_init (name : String)
    (new_threshold deep_threshold : Int)
    (new_model developing_model deep_model : Target) :
    Except String RuleImpl :=
  if deep_threshold ≤ new_threshold then
    .error "new_threshold must be less than deep_threshold"
  else if new_threshold < 1 || deep_threshold < 1 then
    .error "thresholds must be positive integers"
  else
    .ok (.convCtxR name new_threshold deep_threshold new_model
          developing_model deep_model)

/-- ConversationContextRule.update_thresholds (lines 120 to 141). -/
def conversation_context_rule_update_thresholds (cur_new cur_deep : Int)
    (new_threshold deep_threshold : Option Int) :
    Except String (Int × Int) :=
  let new_new := new_threshold.getD cur_new
  let new_deep := deep_threshold.getD cur_deep
  if new_deep ≤ new_new then
    .error "new_threshold must be less than deep_threshold"
  else if new_new < 1 || new_deep < 1 then
    .error "thresholds must be positive integers"
  else .ok (new_new, new_deep)

/-!
Router (router.py).  The Python heap is an environment from rule object
identities to rule values; the process-wide rule registry is a partial map
from names to rule identities.  An entry of the rules list of a Router is
either a name string (looked up at evaluation time, silently skipped when
unknown) or a direct object reference.  The random.choice call of the
legacy no-rules path is modelled by an arbitrary selector index seed taken
modulo the list length, which ranges over exactly the outcomes the random
draw can produce.
-/

/-- Heap of rule objects. -/
def Env : Type := RuleId → RuleImpl

/-- Process-wide rule registry, get_rule of rules/init. -/
def Registry : Type := String → Option RuleId

/-- Entry of the rules list of a Router. -/
inductive RuleRef where
  | byName (s : String)
  | byObj (r : RuleId)
deriving DecidableEq

/-- Resolution of one rules-list entry (router.py lines 105 to 112 and
133 to 140): a string is looked up in the registry, an object stands. -/
def resolve_ref (reg : Registry) : RuleRef → Option RuleId
  | .byName s => reg s
  | .byObj r => some r

/-- Router state after construction. -/
structure RouterCfg where
  name : String
  rules : List RuleRef
  default : String
  models : List String
deriving DecidableEq

/-- DEFAULT_ROUTER_MODELS from default_models.py. -/
def DEFAULT_ROUTER_MODELS : List String :=
  ["openai/gpt-3.5-turbo", "openai/gpt-3.5-turbo-0125",
   "openai/gpt-4o-mini", "openai/gpt-4o-mini-2024-07-18"]

/-- Router constructor (router.py lines 17 to 47): falsy rules and default
arguments are replaced by the empty list and the hard-coded default model;
with no rules the models list falls back to the default cheap models and
must be non-empty. -/
def router_init (name : String) (rules : Option (List RuleRef))
    (default : Option String) (models : Option (List String)) :
    Except String RouterCfg :=
  let rules := rules.getD []
  let default :=
    match default with
    | some d => if d.isEmpty then "gpt-3.5-turbo" else d
    | none => "gpt-3.5-turbo"
  if rules.isEmpty then
    let models :=
      match models with
      | none => DEFAULT_ROUTER_MODELS
      | some ms => ms
    if models.isEmpty then
      .error "Router must have at least one model to select from"
    else .ok ⟨name, rules, default, models⟩
  else .ok ⟨name, rules, default, models.getD []⟩

/-- Loop body of evaluate rule chain (router.py lines 164 to 180), with the
remaining depth budget as fuel: while current rule is set and depth is
below max depth, evaluate it; a model decision returns it, a rule decision
hops, a none decision aborts; an exhausted budget yields no model. -/
def chain_go (env : Env) : Nat → RuleId → Request → Option String × Request
  | 0, _, req => (none, req)
  | fuel+1, r, req =>
    let dr := evaluateS (env r) req
    match dr.1.value with
    | .str m => (some m, dr.2)
    | .rule r2 => chain_go env fuel r2 dr.2
    | .noneV => (none, dr.2)

/-- Router evaluate rule chain with the default depth bound of ten. -/
def evaluate_rule_chain (env : Env) (r : RuleId) (req : Request)
    (max_depth : Nat := 10) : Option String × Request :=
  chain_go env max_depth r req

/-- Number of evaluate calls the chain loop performs. -/
def chain_eval_count (env : Env) : Nat → RuleId → Request → Nat
  | 0, _, _ => 0
  | fuel+1, r, req =>
    let dr := evaluateS (env r) req
    match dr.1.value with
    | .rule r2 => 1 + chain_eval_count env fuel r2 dr.2
    | _ => 1

/-- Whether the chain loop runs out of depth budget while a rule is still
pending (the max-depth-reached exit of the loop). -/
def chain_exhausted (env : Env) : Nat → RuleId → Request → Bool
  | 0, _, _ => true
  | fuel+1, r, req =>
    let dr := evaluateS (env r) req
    match dr.1.value with
    | .rule r2 => chain_exhausted env fuel r2 dr.2
    | _ => false

/-- Chain evaluation with explanation tracking (router.py lines 193 to
238): one entry per evaluated rule (the model on a terminal match, continue
on a hop, no match on an abort), plus, on budget exhaustion with a rule
still pending, one final entry with the max-depth trigger. -/
def chain_exp (env : Env) :
    Nat → RuleId → Request → Option String × List Entry × Request
  | 0, r, req =>
    (none,
     [mk_entry (rule_type_name (env r)) (rule_name (env r))
        (some "max_depth_reached") "no_match"], req)
  | fuel+1, r, req =>
    let ru := env r
    let dr := evaluateS ru req
    match dr.1.value with
    | .str m =>
      (some m, [mk_entry (rule_type_name ru) (rule_name ru) dr.1.trigger m],
       dr.2)
    | .rule r2 =>
      let rest := chain_exp env fuel r2 dr.2
      (rest.1,
       mk_entry (rule_type_name ru) (rule_name ru) dr.1.trigger "continue"
         :: rest.2.1,
       rest.2.2)
    | .noneV =>
      (none,
       [mk_entry (rule_type_name ru) (rule_name ru) dr.1.trigger
          "no_match"], dr.2)

/-- Router evaluate rule chain with explanation, default depth ten. -/
def evaluate_rule_chain_with_explanation (env : Env) (r : RuleId)
    (req : Request) (max_depth : Nat := 10) :
    Option String × List Entry × Request :=
  chain_exp env max_depth r req

/-- Router select model by rules (lines 105 to 120): first truthy chain
result wins, unresolvable names are skipped, the default closes. -/
def select_model_by_rules (env : Env) (reg : Registry) (default : String) :
    List RuleRef → Request → String × Request
  | [], req => (default, req)
  | ref :: rest, req =>
    match resolve_ref reg ref with
    | none => select_model_by_rules env reg default rest req
    | some rid =>
      let res := evaluate_rule_chain env rid req
      match res.1 with
      | some m =>
          if m.isEmpty then select_model_by_rules env reg default rest res.2
          else (m, res.2)
      | none => select_model_by_rules env reg default rest res.2

/-- Router select model by rules with explanation (lines 131 to 151):
explanations of every tried chain are concatenated; when no chain yields a
truthy model a synthetic default entry closes the trail and the default is
returned. -/
def select_model_by_rules_exp (env : Env) (reg : Registry)
    (default : String) : List RuleRef → Request → String × List Entry × Request
  | [], req =>
    (default, [mk_entry "default" "default" (some "None") default], req)
  | ref :: rest, req =>
    match resolve_ref reg ref with
    | none => select_model_by_rules_exp env reg default rest req
    | some rid =>
      let res := evaluate_rule_chain_with_explanation env rid req
      match res.1 with
      | some m =>
        if m.isEmpty then
          let r2 := select_model_by_rules_exp env reg default rest res.2.2
          (r2.1, res.2.1 ++ r2.2.1, r2.2.2)
        else (m, res.2.1, res.2.2)
      | none =>
        let r2 := select_model_by_rules_exp env reg default rest res.2.2
        (r2.1, res.2.1 ++ r2.2.1, r2.2.2)

/-- Router select model (lines 49 to 67): rule-based selection when rules
exist, otherwise the legacy random draw from the models list, otherwise
the default. -/
def select_model (env : Env) (reg : Registry) (seed : Nat)
    (cfg : RouterCfg) (req : Request) : String :=
  if !cfg.rules.isEmpty then
    (select_model_by_rules env reg cfg.default cfg.rules req).1
  else if !cfg.models.isEmpty then
    cfg.models.getD (seed % cfg.models.length) ""
  else cfg.default

/-- Legacy branch of select model with explanation (lines 86 to 94): a
random draw or the default, with one appended synthetic default entry whose
decision is the returned model. -/
def smwe_fallback (seed : Nat) (cfg : RouterCfg) (es : List Entry) :
    String × List Entry :=
  if !cfg.models.isEmpty then
    let sel := cfg.models.getD (seed % cfg.models.length) ""
    (sel, es ++ [mk_entry "default" "default" (some "None") sel])
  else (cfg.default, es ++ [mk_entry "default" "default" (some "None")
    cfg.default])

/-- Router select model with explanation (lines 69 to 94). -/
def select_model_with_explanation (env : Env) (reg : Registry) (seed : Nat)
    (cfg : RouterCfg) (req : Request) : String × List Entry :=
  if !cfg.rules.isEmpty then
    let t := select_model_by_rules_exp env reg cfg.default cfg.rules req
    if !t.1.isEmpty then (t.1, t.2.1) else smwe_fallback seed cfg t.2.1
  else smwe_fallback seed cfg []

/-- Observer for the explanation-completeness statement: total number of
evaluate calls performed across the chains actually tried. -/
def total_eval_count (env : Env) (reg : Registry) :
    List RuleRef → Request → Nat
  | [], _ => 0
  | ref :: rest, req =>
    match resolve_ref reg ref with
    | none => total_eval_count env reg rest req
    | some rid =>
      let res := evaluate_rule_chain env rid req
      chain_eval_count env 10 rid req +
        (match res.1 with
         | some m =>
             if m.isEmpty then total_eval_count env reg rest res.2 else 0
         | none => total_eval_count env reg rest res.2)

/-- Observer: number of tried chains that exhaust the depth budget. -/
def total_exhausted_count (env : Env) (reg : Registry) :
    List RuleRef → Request → Nat
  | [], _ => 0
  | ref :: rest, req =>
    match resolve_ref reg ref with
    | none => total_exhausted_count env reg rest req
    | some rid =>
      let res := evaluate_rule_chain env rid req
      (if chain_exhausted env 10 rid req then 1 else 0) +
        (match res.1 with
         | some m =>
             if m.isEmpty then total_exhausted_count env reg rest res.2
             else 0
         | none => total_exhausted_count env reg rest res.2)

/-- Observer: whether some tried chain returns a truthy model. -/
def any_chain_truthy (env : Env) (reg : Registry) :
    List RuleRef → Request → Bool
  | [], _ => false
  | ref :: rest, req =>
    match resolve_ref reg ref with
    | none => any_chain_truthy env reg rest req
    | some rid =>
      let res := evaluate_rule_chain env rid req
      match res.1 with
      | some m =>
          if m.isEmpty then any_chain_truthy env reg rest res.2 else true
      | none => any_chain_truthy env reg rest res.2

end Deimos

namespace Deimos

/-!
Specification-side definitions and concrete fixtures.  The first two
definitions restate the CodeRule decision policy in the words of the
specification (the ratio written as an exact rational division); they are
compared with the source-embedded cascade in the theorems.  The remaining
definitions are concrete rule heaps, registries and router configurations
used as evaluation points.
-/

/-- Decision cascade of CodeRule as the specification words it, with the
ratio of code matches over all matches as a rational number. -/
def spec_code_decision (cm ncm : Nat) : Bool :=
  if cm == 0 then false
  else if 4 ≤ cm then true
  else if 5 ≤ ncm && cm < 3 then false
  else if ncm == 0 then decide (2 ≤ cm)
  else
    decide ((1 : ℚ)/2 ≤ (cm : ℚ) / ((cm : ℚ) + (ncm : ℚ))) &&
    decide (2 ≤ cm)

/-- CodeRule.evaluate as the specification words it: newline join of all
string message contents, the two counts, the cascade. -/
def spec_code_evaluate (code notCode : Target) (req : Request) : Decision :=
  let text := extract_text_content req
  if text.isEmpty then ⟨notCode.toDValue, some "no_content"⟩
  else if spec_code_decision (code_matches text) (not_code_matches text) then
    ⟨code.toDValue, some "code_detected"⟩
  else ⟨notCode.toDValue, some "no_code_detected"⟩

/-- Token count MessageLengthRule.evaluate derives from a request. -/
def user_token_count (tok : String → Nat) (req : Request) : Nat :=
  count_tokens tok (String.intercalate "\n" (extract_user_texts req.messages))

/-- Request with a single user message holding the scenario source text. -/
def scenario_code_request : Request :=
  ⟨[.msg (some "user") (some (.str "def f(x):\n    return x+1"))], none, []⟩

/-- Request with no messages and no task. -/
def blank_request : Request := ⟨[], none, []⟩

/-- Request whose task key triggers every cycle rule. -/
def cycle_request : Request := ⟨[], some "t", []⟩

/-- Heap of k mutually referencing TaskRules: rule i forwards to rule
i plus one modulo k on the task t, closing a cycle of length k. -/
def cycle_env (k : Nat) : Env := fun i =>
  .taskR ("cycle-rule-" ++ toString i) [("t", Target.ruleT ((i + 1) % k))]

/-- Heap with one self-referencing TaskRule at every identity. -/
def loop_env : Env := fun _ => .taskR "self-loop" [("t", Target.ruleT 0)]

/-- Router over the self-loop rule with default Z. -/
def loop_cfg : RouterCfg := ⟨"loop-router", [.byObj 0], "Z", []⟩

/-- Registry with no entries. -/
def empty_registry : Registry := fun _ => none

/-- Heap from the repositories own chaining test script: rule 0 is a
TaskRule whose python entry holds the rule-name string for rule 1, and
rule 1 is the TaskRule that maps python to gpt-4. -/
def chainbug_env : Env := fun i =>
  if i == (1 : Nat) then .taskR "language-decider" [("python", .modelT "gpt-4")]
  else .taskR "chainer" [("python", .modelT "deimos/rules/language-decider")]

/-- Registry resolving the referenced rule under both its plain name and
its namespaced name. -/
def chainbug_reg : Registry := fun s =>
  if s == "language-decider" || s == "deimos/rules/language-decider"
  then some 1 else none

/-- Router over the string-chaining rule. -/
def chainbug_cfg : RouterCfg :=
  ⟨"chaining-test-router", [.byObj 0], "gpt-4o-mini", []⟩

/-- Request with the python task. -/
def chainbug_req : Request := ⟨[], some "python", []⟩

/-- Router state produced by constructing with empty rules, default Z and
no models argument. -/
def empty_rules_cfg : RouterCfg := ⟨"r", [], "Z", DEFAULT_ROUTER_MODELS⟩

/-- Router state produced by constructing with empty rules, default Z and
one explicit model A. -/
def one_model_cfg : RouterCfg := ⟨"r6", [], "Z", ["A"]⟩

/-- Heap whose every identity is an unused TaskRule. -/
def trivial_env : Env := fun _ => .taskR "unused" []

/-- Stand-in for the tiktoken encoding table: exactly one known encoding
name, mapped to a concrete token counter. -/
def stub_encodings : String → Option (String → Nat) := fun s =>
  if s == "cl100k_base" then some (fun t => t.length) else none

end Deimos

namespace Deimos

/-- Simp lemma: the rule type field of a built entry. -/
theorem mk_entry_rule_type (a b : String) (c : Option String) (d : String) :
    (mk_entry a b c d).rule_type = a := rfl

/-- No evaluate method stores into the request: the state component of
every evaluation is the incoming request. -/
theorem evaluateS_snd (ru : RuleImpl) (req : Request) :
    (evaluateS ru req).2 = req := by
  cases ru <;> simp only [evaluateS] <;> (repeat' split) <;> rfl

/-- The chain loop leaves the request unchanged. -/
theorem chain_go_snd (env : Env) (fuel : Nat) (r : RuleId) (req : Request) :
    (chain_go env fuel r req).2 = req := by
  induction fuel generalizing r req with
  | zero => rfl
  | succ n ih =>
    rcases hEv : evaluateS (env r) req with ⟨d, req2⟩
    have hreq : req2 = req := by
      have h := evaluateS_snd (env r) req
      rw [hEv] at h
      exact h
    subst hreq
    simp only [chain_go, hEv]
    cases hdv : d.value with
    | str m => simp
    | rule r2 => exact ih r2 req2
    | noneV => simp

/-- The explanation chain leaves the request unchanged. -/
theorem chain_exp_snd (env : Env) (fuel : Nat) (r : RuleId) (req : Request) :
    (chain_exp env fuel r req).2.2 = req := by
  induction fuel generalizing r req with
  | zero => rfl
  | succ n ih =>
    rcases hEv : evaluateS (env r) req with ⟨d, req2⟩
    have hreq : req2 = req := by
      have h := evaluateS_snd (env r) req
      rw [hEv] at h
      exact h
    subst hreq
    simp only [chain_exp, hEv]
    cases hdv : d.value with
    | str m => simp
    | rule r2 => exact ih r2 req2
    | noneV => simp

/-- The explanation chain selects the same model as the plain chain. -/
theorem chain_exp_fst (env : Env) (fuel : Nat) (r : RuleId) (req : Request) :
    (chain_exp env fuel r req).1 = (chain_go env fuel r req).1 := by
  induction fuel generalizing r req with
  | zero => rfl
  | succ n ih =>
    rcases hEv : evaluateS (env r) req with ⟨d, req2⟩
    simp only [chain_exp, chain_go, hEv]
    cases hdv : d.value with
    | str m => simp
    | rule r2 => exact ih r2 req2
    | noneV => simp

/-- Entry count of one explanation chain: one entry per evaluate call,
plus the synthetic max-depth entry exactly when the budget runs out. -/
theorem chain_exp_len (env : Env) (fuel : Nat) (r : RuleId) (req : Request) :
    (chain_exp env fuel r req).2.1.length =
      chain_eval_count env fuel r req +
      (if chain_exhausted env fuel r req then 1 else 0) := by
  induction fuel generalizing r req with
  | zero => rfl
  | succ n ih =>
    rcases hEv : evaluateS (env r) req with ⟨d, req2⟩
    simp only [chain_exp, chain_eval_count, chain_exhausted, hEv]
    cases hdv : d.value with
    | str m => simp
    | rule r2 =>
      simp only [List.length_cons, ih r2 req2]
      omega
    | noneV => simp

/-- The chain loop performs at most fuel evaluate calls. -/
theorem chain_eval_count_le (env : Env) (fuel : Nat) (r : RuleId)
    (req : Request) : chain_eval_count env fuel r req ≤ fuel := by
  induction fuel generalizing r req with
  | zero => exact Nat.le_refl 0
  | succ n ih =>
    rcases hEv : evaluateS (env r) req with ⟨d, req2⟩
    simp only [chain_eval_count, hEv]
    cases hdv : d.value with
    | str m => simp
    | rule r2 =>
      have h := ih r2 req2
      simp only []
      omega
    | noneV => simp

/-- No rule class is named default. -/
theorem rule_type_name_ne_default (ru : RuleImpl) :
    rule_type_name ru ≠ "default" := by
  cases ru <;> simp only [rule_type_name] <;> decide

/-- Every entry of a chain explanation names an actual rule class, never
the synthetic default type. -/
theorem chain_exp_types (env : Env) (fuel : Nat) (r : RuleId)
    (req : Request) :
    ∀ e ∈ (chain_exp env fuel r req).2.1, e.rule_type ≠ "default" := by
  induction fuel generalizing r req with
  | zero =>
    intro e he
    simp only [chain_exp, List.mem_singleton] at he
    subst he
    simpa [mk_entry_rule_type] using rule_type_name_ne_default (env r)
  | succ n ih =>
    intro e he
    rcases hEv : evaluateS (env r) req with ⟨d, req2⟩
    simp only [chain_exp, hEv] at he
    cases hdv : d.value with
    | str m =>
      rw [hdv] at he
      simp only [List.mem_singleton] at he
      subst he
      simpa [mk_entry_rule_type] using rule_type_name_ne_default (env r)
    | rule r2 =>
      rw [hdv] at he
      simp only [List.mem_cons] at he
      rcases he with he | he
      · subst he
        simpa [mk_entry_rule_type] using rule_type_name_ne_default (env r)
      · exact ih r2 req2 e he
    | noneV =>
      rw [hdv] at he
      simp only [List.mem_singleton] at he
      subst he
      simpa [mk_entry_rule_type] using rule_type_name_ne_default (env r)

end Deimos

namespace Deimos

theorem select_exp_len (env : Env) (reg : Registry) (default : String)
    (rules : List RuleRef) (req : Request) :
    (select_model_by_rules_exp env reg default rules req).2.1.length =
      total_eval_count env reg rules req +
      total_exhausted_count env reg rules req +
      (if any_chain_truthy env reg rules req then 0 else 1) := by
  induction rules generalizing req with
  | nil =>
    simp [select_model_by_rules_exp, total_eval_count,
          total_exhausted_count, any_chain_truthy]
  | cons ref rest ih =>
    cases href : resolve_ref reg ref with
    | none =>
      simp only [select_model_by_rules_exp, total_eval_count,
                 total_exhausted_count, any_chain_truthy, href]
      exact ih req
    | some rid =>
      have hfst := chain_exp_fst env 10 rid req
      have hsnd := chain_exp_snd env 10 rid req
      have hgsnd := chain_go_snd env 10 rid req
      have hlen := chain_exp_len env 10 rid req
      rcases hE : chain_exp env 10 rid req with ⟨eres, elist, ereq⟩
      rcases hG : chain_go env 10 rid req with ⟨gres, greq⟩
      rw [hE] at hfst hsnd hlen
      rw [hG] at hfst hgsnd
      simp only at hfst hsnd hlen hgsnd
      subst hsnd
      subst hgsnd
      subst hfst
      simp only [select_model_by_rules_exp, total_eval_count,
                 total_exhausted_count, any_chain_truthy, href,
                 evaluate_rule_chain, evaluate_rule_chain_with_explanation,
                 hE, hG]
      cases eres with
      | none =>
        simp only [List.length_append, ih greq, hlen]
        omega
      | some m =>
        by_cases hm : m.isEmpty
        · simp only [hm, if_true, List.length_append, ih greq, hlen]
          omega
        · simp [hm, hlen]

end Deimos

namespace Deimos

theorem select_exp_filter (env : Env) (reg : Registry) (default : String)
    (rules : List RuleRef) (req : Request) :
    (select_model_by_rules_exp env reg default rules req).2.1.filter
        (fun e => e.rule_type == "default") =
      (if any_chain_truthy env reg rules req then []
       else [mk_entry "default" "default" (some "None") default]) := by
  induction rules generalizing req with
  | nil =>
    simp [select_model_by_rules_exp, any_chain_truthy, mk_entry_rule_type,
          List.filter]
  | cons ref rest ih =>
    cases href : resolve_ref reg ref with
    | none =>
      simp only [select_model_by_rules_exp, any_chain_truthy, href]
      exact ih req
    | some rid =>
      have hfst := chain_exp_fst env 10 rid req
      have hsnd := chain_exp_snd env 10 rid req
      have hgsnd := chain_go_snd env 10 rid req
      have htys := chain_exp_types env 10 rid req
      rcases hE : chain_exp env 10 rid req with ⟨eres, elist, ereq⟩
      rcases hG : chain_go env 10 rid req with ⟨gres, greq⟩
      rw [hE] at hfst hsnd htys
      rw [hG] at hfst hgsnd
      simp only at hfst hsnd htys hgsnd
      subst hsnd
      subst hgsnd
      subst hfst
      have hnil : elist.filter (fun e => e.rule_type == "default") = [] := by
        rw [List.filter_eq_nil_iff]
        intro e he
        simpa using htys e he
      simp only [select_model_by_rules_exp, any_chain_truthy, href,
                 evaluate_rule_chain, evaluate_rule_chain_with_explanation,
                 hE, hG]
      cases eres with
      | none =>
        simp only [List.filter_append, hnil, List.nil_append]
        exact ih greq
      | some m =>
        by_cases hm : m.isEmpty
        · simp only [hm, if_true, List.filter_append, hnil, List.nil_append]
          exact ih greq
        · simp [hm, hnil]

theorem select_exp_last (env : Env) (reg : Registry) (default : String)
    (rules : List RuleRef) (req : Request)
    (hT : any_chain_truthy env reg rules req = false) :
    (select_model_by_rules_exp env reg default rules req).2.1.getLast? =
      some (mk_entry "default" "default" (some "None") default) := by
  induction rules generalizing req with
  | nil => simp [select_model_by_rules_exp]
  | cons ref rest ih =>
    cases href : resolve_ref reg ref with
    | none =>
      simp only [any_chain_truthy, href] at hT
      simp only [select_model_by_rules_exp, href]
      exact ih req hT
    | some rid =>
      have hfst := chain_exp_fst env 10 rid req
      have hsnd := chain_exp_snd env 10 rid req
      have hgsnd := chain_go_snd env 10 rid req
      rcases hE : chain_exp env 10 rid req with ⟨eres, elist, ereq⟩
      rcases hG : chain_go env 10 rid req with ⟨gres, greq⟩
      rw [hE] at hfst hsnd
      rw [hG] at hfst hgsnd
      simp only at hfst hsnd hgsnd
      subst hsnd
      subst hgsnd
      subst hfst
      simp only [any_chain_truthy, href, evaluate_rule_chain, hG] at hT
      simp only [select_model_by_rules_exp, href,
                 evaluate_rule_chain_with_explanation, hE]
      cases eres with
      | none =>
        have hrec := ih greq hT
        have hne : (select_model_by_rules_exp env reg default rest
            greq).2.1 ≠ [] := by
          intro hc
          rw [hc] at hrec
          simp at hrec
        simp only [List.getLast?_append_of_ne_nil _ hne]
        exact hrec
      | some m =>
        by_cases hm : m.isEmpty
        · simp only [hm, if_true] at hT
          have hrec := ih greq hT
          have hne : (select_model_by_rules_exp env reg default rest
              greq).2.1 ≠ [] := by
            intro hc
            rw [hc] at hrec
            simp at hrec
          simp only [hm, if_true, List.getLast?_append_of_ne_nil _ hne]
          exact hrec
        · simp only [if_neg hm] at hT
          simp at hT

theorem select_exp_fst_default (env : Env) (reg : Registry)
    (default : String) (rules : List RuleRef) (req : Request)
    (hT : any_chain_truthy env reg rules req = false) :
    (select_model_by_rules_exp env reg default rules req).1 = default := by
  induction rules generalizing req with
  | nil => simp [select_model_by_rules_exp]
  | cons ref rest ih =>
    cases href : resolve_ref reg ref with
    | none =>
      simp only [any_chain_truthy, href] at hT
      simp only [select_model_by_rules_exp, href]
      exact ih req hT
    | some rid =>
      have hfst := chain_exp_fst env 10 rid req
      have hsnd := chain_exp_snd env 10 rid req
      have hgsnd := chain_go_snd env 10 rid req
      rcases hE : chain_exp env 10 rid req with ⟨eres, elist, ereq⟩
      rcases hG : chain_go env 10 rid req with ⟨gres, greq⟩
      rw [hE] at hfst hsnd
      rw [hG] at hfst hgsnd
      simp only at hfst hsnd hgsnd
      subst hsnd
      subst hgsnd
      subst hfst
      simp only [any_chain_truthy, href, evaluate_rule_chain, hG] at hT
      simp only [select_model_by_rules_exp, href,
                 evaluate_rule_chain_with_explanation, hE]
      cases eres with
      | none => exact ih greq hT
      | some m =>
        by_cases hm : m.isEmpty
        · simp only [hm, if_true] at hT
          simp only [hm, if_true]
          exact ih greq hT
        · simp only [if_neg hm] at hT
          simp at hT

theorem select_exp_fst_truthy (env : Env) (reg : Registry)
    (default : String) (rules : List RuleRef) (req : Request)
    (hT : any_chain_truthy env reg rules req = true) :
    (select_model_by_rules_exp env reg default rules req).1.isEmpty
      = false := by
  induction rules generalizing req with
  | nil => simp [any_chain_truthy] at hT
  | cons ref rest ih =>
    cases href : resolve_ref reg ref with
    | none =>
      simp only [any_chain_truthy, href] at hT
      simp only [select_model_by_rules_exp, href]
      exact ih req hT
    | some rid =>
      have hfst := chain_exp_fst env 10 rid req
      have hsnd := chain_exp_snd env 10 rid req
      have hgsnd := chain_go_snd env 10 rid req
      rcases hE : chain_exp env 10 rid req with ⟨eres, elist, ereq⟩
      rcases hG : chain_go env 10 rid req with ⟨gres, greq⟩
      rw [hE] at hfst hsnd
      rw [hG] at hfst hgsnd
      simp only at hfst hsnd hgsnd
      subst hsnd
      subst hgsnd
      subst hfst
      simp only [any_chain_truthy, href, evaluate_rule_chain, hG] at hT
      simp only [select_model_by_rules_exp, href,
                 evaluate_rule_chain_with_explanation, hE]
      cases eres with
      | none => exact ih greq hT
      | some m =>
        by_cases hm : m.isEmpty
        · simp only [hm, if_true] at hT
          simp only [hm, if_true]
          exact ih greq hT
        · simp [hm]

theorem select_plain_fst_default (env : Env) (reg : Registry)
    (default : String) (rules : List RuleRef) (req : Request)
    (hT : any_chain_truthy env reg rules req = false) :
    (select_model_by_rules env reg default rules req).1 = default := by
  induction rules generalizing req with
  | nil => rfl
  | cons ref rest ih =>
    cases href : resolve_ref reg ref with
    | none =>
      simp only [any_chain_truthy, href] at hT
      simp only [select_model_by_rules, href]
      exact ih req hT
    | some rid =>
      have hgsnd := chain_go_snd env 10 rid req
      rcases hG : chain_go env 10 rid req with ⟨gres, greq⟩
      simp only at hgsnd
      rw [hG] at hgsnd
      simp only at hgsnd
      subst hgsnd
      simp only [any_chain_truthy, href, evaluate_rule_chain, hG] at hT
      simp only [select_model_by_rules, href, evaluate_rule_chain, hG]
      cases gres with
      | none => exact ih greq hT
      | some m =>
        by_cases hm : m.isEmpty
        · simp only [hm, if_true] at hT
          simp only [hm, if_true]
          exact ih greq hT
        · simp only [if_neg hm] at hT
          simp at hT

theorem getD_mod_mem (l : List String) (h : l ≠ []) (s : Nat) :
    l.getD (s % l.length) "" ∈ l := by
  have hlt : s % l.length < l.length :=
    Nat.mod_lt _ (List.length_pos.mpr h)
  rw [List.getD_eq_getElem _ _ hlt]
  exact List.getElem_mem _

end Deimos

namespace Deimos

/-- The rational ratio comparison of the specification agrees with the
cross-multiplied comparison of the embedding whenever any code match
exists. -/
theorem ratio_half_iff (cm ncm : Nat) (h : cm ≠ 0) :
    ((1:ℚ)/2 ≤ (cm : ℚ) / ((cm : ℚ) + (ncm : ℚ))) ↔ (cm + ncm ≤ 2 * cm) := by
  have hc : (0:ℚ) < (cm : ℚ) := by exact_mod_cast Nat.pos_of_ne_zero h
  have hn : (0:ℚ) ≤ (ncm : ℚ) := by positivity
  have hpos : (0:ℚ) < (cm : ℚ) + (ncm : ℚ) := by linarith
  rw [div_le_div_iff₀ (by norm_num) hpos, one_mul, mul_comm]
  exact_mod_cast Iff.rfl

/-- The embedded cascade of contains code equals the cascade as the
specification words it. -/
theorem containsCodeCounts_eq_spec (cm ncm : Nat) :
    containsCodeCounts cm ncm = spec_code_decision cm ncm := by
  by_cases h0 : cm = 0
  · simp [containsCodeCounts, spec_code_decision, h0]
  · unfold containsCodeCounts spec_code_decision
    have hne : (cm == 0) = false := by simpa using h0
    simp only [hne, Bool.false_eq_true, if_false]
    repeat' split <;> try rfl
    congr 1
    rw [decide_eq_decide]
    exact (ratio_half_iff cm ncm h0).symm

/-- CodeRule.evaluate coincides with the specification-side description on
every request. -/
theorem code_evaluate_eq_spec (n : String) (code notCode : Target)
    (req : Request) :
    evaluate (.codeR n code notCode) req
      = spec_code_evaluate code notCode req := by
  show (evaluateS (.codeR n code notCode) req).1 = _
  simp only [evaluateS, spec_code_evaluate, contains_code,
             containsCodeCounts_eq_spec]
  split
  · rfl
  · split <;> rfl

end Deimos

namespace Deimos

theorem cycle_eval (k : Nat) (i : RuleId) :
    evaluateS (cycle_env k i) cycle_request =
      (⟨.rule ((i + 1) % k), some "t"⟩, cycle_request) := rfl

theorem cycle_chain_none (k : Nat) :
    ∀ (fuel : Nat) (i : RuleId),
      (chain_go (cycle_env k) fuel i cycle_request).1 = none := by
  intro fuel
  induction fuel with
  | zero => intro i; rfl
  | succ n ih =>
    intro i
    simp only [chain_go, cycle_eval]
    exact ih ((i + 1) % k)

theorem cycle_count (k : Nat) :
    ∀ (fuel : Nat) (i : RuleId),
      chain_eval_count (cycle_env k) fuel i cycle_request = fuel := by
  intro fuel
  induction fuel with
  | zero => intro i; rfl
  | succ n ih =>
    intro i
    simp only [chain_eval_count, cycle_eval]
    rw [ih ((i + 1) % k)]
    omega

theorem chain_exp_ne_nil (env : Env) (fuel : Nat) (r : RuleId)
    (req : Request) : (chain_exp env fuel r req).2.1 ≠ [] := by
  cases fuel with
  | zero => simp [chain_exp]
  | succ n =>
    rcases hEv : evaluateS (env r) req with ⟨d, req2⟩
    simp only [chain_exp, hEv]
    cases hdv : d.value <;> simp

theorem cycle_last (k : Nat) :
    ∀ (fuel : Nat) (i : RuleId), ∃ t n,
      ((chain_exp (cycle_env k) fuel i cycle_request).2.1).getLast? =
        some (mk_entry t n (some "max_depth_reached") "no_match") := by
  intro fuel
  induction fuel with
  | zero => intro i; exact ⟨_, _, rfl⟩
  | succ n ih =>
    intro i
    obtain ⟨t, nm, hl⟩ := ih ((i + 1) % k)
    simp only [chain_exp, cycle_eval]
    rcases hr : (chain_exp (cycle_env k) n ((i + 1) % k)
        cycle_request).2.1 with _ | ⟨b, l2⟩
    · exact absurd hr (chain_exp_ne_nil _ _ _ _)
    · refine ⟨t, nm, ?_⟩
      rw [List.getLast?_cons_cons, ← hr]
      exact hl

end Deimos

namespace Deimos

set_option maxHeartbeats 1000000 in
/-- Claim C1 (code bug): chain resolution is claimed to resolve a rule
referenced by a name string through the registry, stripping the namespacing
prefix, and to abort on an unresolvable name.  The code does neither: a
Decision carrying a string is always a model decision, so the router
returns the namespaced rule-name string verbatim as the selected model even
though the registry resolves the referenced rule, which would map the
python task to gpt-4. -/
theorem string_rule_reference_treated_as_model :
    select_model chainbug_env chainbug_reg 0 chainbug_cfg chainbug_req
      = "deimos/rules/language-decider" ∧
    (evaluate (chainbug_env 0) chainbug_req).is_model = true ∧
    (evaluate (chainbug_env 0) chainbug_req).is_rule = false ∧
    chainbug_reg "deimos/rules/language-decider" = some 1 ∧
    chainbug_reg "language-decider" = some 1 ∧
    evaluate (chainbug_env 1) chainbug_req
      = ⟨.str "gpt-4", some "python"⟩ := by
  decide

/-- Claim C2 (counterexample): a router constructed with empty rules and
default Z does not return Z; the select call draws from the default cheap
models and returns the first of them for selector index zero. -/
theorem empty_rules_router_counterexample :
    router_init "r" none (some "Z") none = .ok empty_rules_cfg ∧
    select_model trivial_env empty_registry 0 empty_rules_cfg blank_request
      = "openai/gpt-3.5-turbo" ∧
    ("openai/gpt-3.5-turbo" : String) ≠ "Z" :=
  ⟨rfl, rfl, by decide⟩

/-- Claim C2 (amended): with empty rules the select call returns a member
of the default cheap-models list, whatever the request and the random
draw, and the explanation variant returns the same member together with
exactly one synthetic default entry whose decision is that member. -/
theorem empty_rules_router_random_selection (seed : Nat) (req : Request) :
    select_model trivial_env empty_registry seed empty_rules_cfg req
      ∈ DEFAULT_ROUTER_MODELS ∧
    select_model_with_explanation trivial_env empty_registry seed
        empty_rules_cfg req =
      (select_model trivial_env empty_registry seed empty_rules_cfg req,
       [mk_entry "default" "default" (some "None")
          (select_model trivial_env empty_registry seed empty_rules_cfg
            req)]) := by
  constructor
  · have h := getD_mod_mem DEFAULT_ROUTER_MODELS (by decide) seed
    simpa [select_model, empty_rules_cfg] using h
  · rfl

/-- Claim C4: every cycle of mutually referencing rules, of any length,
makes the chain terminate with no model after exactly the depth bound of
ten rule evaluations; no chain over any rule heap ever performs more than
ten evaluations; and the explanation of the exhausted chain ends in an
entry with the max-depth trigger and the no-match decision. -/
theorem rule_cycle_depth_bound (k : Nat) (hk : 0 < k) (start : RuleId) :
    (evaluate_rule_chain (cycle_env k) start cycle_request).1 = none ∧
    chain_eval_count (cycle_env k) 10 start cycle_request = 10 ∧
    (∀ (env : Env) (r : RuleId) (req : Request),
       chain_eval_count env 10 r req ≤ 10) ∧
    (∃ t n,
      ((evaluate_rule_chain_with_explanation (cycle_env k) start
          cycle_request).2.1).getLast? =
        some (mk_entry t n (some "max_depth_reached") "no_match")) :=
  ⟨cycle_chain_none k 10 start, cycle_count k 10 start,
   fun env r req => chain_eval_count_le env 10 r req,
   cycle_last k 10 start⟩

/-- Claim C4 (witness): the cycle of length fifty, entered at rule zero. -/
theorem rule_cycle_depth_bound_witness :
    (evaluate_rule_chain (cycle_env 50) 0 cycle_request).1 = none ∧
    chain_eval_count (cycle_env 50) 10 0 cycle_request = 10 ∧
    (∀ (env : Env) (r : RuleId) (req : Request),
       chain_eval_count env 10 r req ≤ 10) ∧
    (∃ t n,
      ((evaluate_rule_chain_with_explanation (cycle_env 50) 0
          cycle_request).2.1).getLast? =
        some (mk_entry t n (some "max_depth_reached") "no_match")) :=
  rule_cycle_depth_bound 50 (by decide) 0

/-- Claim C9: no rule variant mutates the request payload, and neither
does chain resolution: the payload after evaluation is the payload that
was passed in, messages, task and all other fields included. -/
theorem rules_never_mutate_request (ru : RuleImpl) (req : Request)
    (env : Env) (rid : RuleId) :
    (evaluateS ru req).2 = req ∧
    (evaluate_rule_chain env rid req).2 = req ∧
    (evaluate_rule_chain_with_explanation env rid req).2.2 = req :=
  ⟨evaluateS_snd ru req, chain_go_snd env 10 rid req,
   chain_exp_snd env 10 rid req⟩

/-- Claim C10: a message dict with string content and no role key counts
as a user message in MessageLengthRule, its content entering the token
count; a message whose role is anything other than user is excluded. -/
theorem missing_role_treated_as_user (c r : String)
    (rest : List MsgItem) (tok : String → Nat) (hr : r ≠ "user") :
    extract_user_texts (.msg none (some (.str c)) :: rest)
      = c :: extract_user_texts rest ∧
    extract_user_texts (.msg (some r) (some (.str c)) :: rest)
      = extract_user_texts rest ∧
    user_token_count tok ⟨[.msg none (some (.str c))], none, []⟩
      = count_tokens tok c := by
  refine ⟨?_, ?_, ?_⟩
  · simp [extract_user_texts]
  · simp [extract_user_texts, hr]
  · rfl

/-- Claim C10 (witness): a concrete roleless message is counted and a
system message is not. -/
theorem missing_role_treated_as_user_witness :
    extract_user_texts [.msg none (some (.str "hello"))]
      = ["hello"] ∧
    extract_user_texts [.msg (some "system") (some (.str "hello"))]
      = [] ∧
    user_token_count String.length
        ⟨[.msg none (some (.str "hello"))], none, []⟩
      = count_tokens String.length "hello" := by
  have h := missing_role_treated_as_user "hello" "system" []
    String.length (by decide)
  simpa using h

end Deimos

namespace Deimos

/-- Claim C5 (counterexample): a self-referencing rule exhausts the depth
bound; its chain contributes eleven entries (ten continue hops plus the
synthetic max-depth entry) for only ten rule evaluations, so with the one
synthetic default entry the trail holds twelve entries where the claim
predicts eleven. -/
theorem explanation_count_counterexample :
    (select_model_with_explanation loop_env empty_registry 0 loop_cfg
        cycle_request).2.length = 12 ∧
    total_eval_count loop_env empty_registry loop_cfg.rules cycle_request
      = 10 ∧
    any_chain_truthy loop_env empty_registry loop_cfg.rules cycle_request
      = false ∧
    (12 : Nat) ≠ 10 + 1 := by
  decide

/-- Claim C5 (amended): for a router with a non-empty rules list and a
non-empty default, the explanation length equals the number of rule
evaluations performed plus one extra max-depth entry per chain that
exhausts the depth bound, plus exactly one synthetic default entry (of
shape default, default, None, default-model) present precisely when no
tried chain yields a truthy model; when present it closes the trail. -/
theorem explanation_completeness_amended (env : Env) (reg : Registry)
    (seed : Nat) (cfg : RouterCfg) (req : Request)
    (hr : cfg.rules ≠ []) (hd : cfg.default ≠ "") :
    (select_model_with_explanation env reg seed cfg req).2.length =
      total_eval_count env reg cfg.rules req +
      total_exhausted_count env reg cfg.rules req +
      (if any_chain_truthy env reg cfg.rules req then 0 else 1) ∧
    ((select_model_with_explanation env reg seed cfg req).2.filter
        (fun e => e.rule_type == "default")) =
      (if any_chain_truthy env reg cfg.rules req then []
       else [mk_entry "default" "default" (some "None") cfg.default]) ∧
    (any_chain_truthy env reg cfg.rules req = false →
      (select_model_with_explanation env reg seed cfg req).2.getLast? =
        some (mk_entry "default" "default" (some "None") cfg.default)) := by
  have hrB : cfg.rules.isEmpty = false := by
    cases hc : cfg.rules with
    | nil => exact absurd hc hr
    | cons a l => rfl
  have hne : (select_model_by_rules_exp env reg cfg.default cfg.rules
      req).1.isEmpty = false := by
    cases hT : any_chain_truthy env reg cfg.rules req with
    | true => exact select_exp_fst_truthy env reg cfg.default cfg.rules req hT
    | false =>
      rw [select_exp_fst_default env reg cfg.default cfg.rules req hT]
      exact Bool.eq_false_iff.mpr
        (fun hc => hd ((String.isEmpty_iff cfg.default).mp hc))
  have hmain : select_model_with_explanation env reg seed cfg req =
      ((select_model_by_rules_exp env reg cfg.default cfg.rules req).1,
       (select_model_by_rules_exp env reg cfg.default cfg.rules req).2.1)
      := by
    simp only [select_model_with_explanation, hrB, Bool.not_false, if_true,
               hne, Bool.not_false]
  rw [hmain]
  exact ⟨select_exp_len env reg cfg.default cfg.rules req,
         select_exp_filter env reg cfg.default cfg.rules req,
         fun hT => select_exp_last env reg cfg.default cfg.rules req hT⟩

/-- Claim C5 (witness): the amended statement at the self-loop router. -/
theorem explanation_completeness_amended_witness :
    (select_model_with_explanation loop_env empty_registry 0 loop_cfg
        cycle_request).2.length =
      total_eval_count loop_env empty_registry loop_cfg.rules
        cycle_request +
      total_exhausted_count loop_env empty_registry loop_cfg.rules
        cycle_request +
      (if any_chain_truthy loop_env empty_registry loop_cfg.rules
          cycle_request then 0 else 1) ∧
    ((select_model_with_explanation loop_env empty_registry 0 loop_cfg
        cycle_request).2.filter (fun e => e.rule_type == "default")) =
      (if any_chain_truthy loop_env empty_registry loop_cfg.rules
          cycle_request then []
       else [mk_entry "default" "default" (some "None") loop_cfg.default]) ∧
    (any_chain_truthy loop_env empty_registry loop_cfg.rules cycle_request
        = false →
      (select_model_with_explanation loop_env empty_registry 0 loop_cfg
          cycle_request).2.getLast? =
        some (mk_entry "default" "default" (some "None")
          loop_cfg.default)) :=
  explanation_completeness_amended loop_env empty_registry 0 loop_cfg
    cycle_request (by decide) (by decide)

end Deimos

namespace Deimos

/-- Claim C6 (counterexample): a constructible router with empty rules,
default Z and models list holding only A returns A for every request and
draw, although no rule yielded a model, so the configured default is not
what a no-rule outcome returns. -/
theorem default_not_returned_counterexample :
    router_init "r6" (some []) (some "Z") (some ["A"]) =
      .ok one_model_cfg ∧
    select_model trivial_env empty_registry 0 one_model_cfg blank_request
      = "A" ∧
    one_model_cfg.default = "Z" ∧ ("A" : String) ≠ "Z" :=
  ⟨rfl, rfl, rfl, by decide⟩

/-- Claim C6 (amended): select model always returns a string; with a
non-empty rules list and no truthy chain it returns the configured
default, and with an empty rules list it returns a member of the
(necessarily non-empty) models list rather than consulting the default. -/
theorem select_model_fallback_amended (env : Env) (reg : Registry)
    (seed : Nat) (cfg : RouterCfg) (req : Request)
    (hcons : cfg.rules = [] → cfg.models ≠ []) :
    (cfg.rules ≠ [] → any_chain_truthy env reg cfg.rules req = false →
       select_model env reg seed cfg req = cfg.default) ∧
    (cfg.rules = [] → select_model env reg seed cfg req ∈ cfg.models) := by
  constructor
  · intro hr hT
    have hrB : cfg.rules.isEmpty = false := by
      cases hc : cfg.rules with
      | nil => exact absurd hc hr
      | cons a l => rfl
    simp only [select_model, hrB, Bool.not_false, if_true]
    exact select_plain_fst_default env reg cfg.default cfg.rules req hT
  · intro hr
    have hm := hcons hr
    have hmB : cfg.models.isEmpty = false := by
      cases hc : cfg.models with
      | nil => exact absurd hc hm
      | cons a l => rfl
    simp only [select_model, hr, List.isEmpty_nil, Bool.not_true,
               Bool.false_eq_true, if_false, hmB, Bool.not_false, if_true]
    exact getD_mod_mem cfg.models hm seed

/-- Claim C6 (witness): the amended statement at the one-model router and
at the self-loop router. -/
theorem select_model_fallback_amended_witness :
    select_model trivial_env empty_registry 0 one_model_cfg blank_request
      ∈ one_model_cfg.models ∧
    select_model loop_env empty_registry 0 loop_cfg cycle_request
      = loop_cfg.default := by
  constructor
  · exact (select_model_fallback_amended trivial_env empty_registry 0
      one_model_cfg blank_request (fun _ => by decide)).2 rfl
  · exact (select_model_fallback_amended loop_env empty_registry 0
      loop_cfg cycle_request (fun h => by simp [loop_cfg] at h)).1
      (by decide) (by decide)

/-- Claim C7 (counterexample): MessageLengthRule accepts a zero short
threshold: constructing with thresholds zero and five over a known
encoding succeeds, while the claim demands a validation error for any
non-positive threshold. -/
theorem zero_threshold_accepted_counterexample :
    (message_length_rule_init "n" 0 5 (.modelT "a") (.modelT "b")
        (.modelT "c") "cl100k_base" stub_encodings).isOk = true ∧
    (stub_encodings "cl100k_base").isSome = true :=
  ⟨rfl, rfl⟩

end Deimos

namespace Deimos

theorem isOk_ok {ε α : Type} (a : α) :
    (Except.ok a : Except ε α).isOk = true := rfl

theorem isOk_error {ε α : Type} (e : ε) :
    (Except.error e : Except ε α).isOk = false := rfl

/-- Claim C7 (amended): threshold ordering is validated at construction
and update time for both bucketing rules, and the tokenizer encoding for
MessageLengthRule; but MessageLengthRule rejects only negative thresholds
(zero is accepted) while ConversationContextRule rejects thresholds below
one. -/
theorem threshold_validation_amended (name : String) (s l : Int)
    (m1 m2 m3 : Target) (enc : String)
    (ge : String → Option (String → Nat)) (cn cd : Int)
    (ns nl : Option Int) :
    ((message_length_rule_init name s l m1 m2 m3 enc ge).isOk = true ↔
       (s < l ∧ 0 ≤ s ∧ 0 ≤ l ∧ (ge enc).isSome = true)) ∧
    ((conversation_context_rule_init name cn cd m1 m2 m3).isOk = true ↔
       (cn < cd ∧ 1 ≤ cn ∧ 1 ≤ cd)) ∧
    ((message_length_rule_update_thresholds s l ns nl).isOk = true ↔
       (ns.getD s < nl.getD l ∧ 0 ≤ ns.getD s ∧ 0 ≤ nl.getD l)) ∧
    ((conversation_context_rule_update_thresholds cn cd ns nl).isOk = true
       ↔ (ns.getD cn < nl.getD cd ∧ 1 ≤ ns.getD cn ∧ 1 ≤ nl.getD cd)) := by
  refine ⟨?_, ?_, ?_, ?_⟩
  · simp only [message_length_rule_init]
    split
    · next h =>
      simp only [isOk_error, Bool.false_eq_true, false_iff]
      rintro ⟨h1, _, _, _⟩
      omega
    · next h =>
      split
      · next h2 =>
        simp only [isOk_error, Bool.false_eq_true, false_iff]
        simp only [Bool.or_eq_true, decide_eq_true_eq] at h2
        rintro ⟨_, h3, h4, _⟩
        omega
      · next h2 =>
        simp only [Bool.or_eq_true, decide_eq_true_eq, not_or] at h2
        rcases hge : ge enc with _ | tok
        · simp only [isOk_error, Bool.false_eq_true, false_iff]
          rintro ⟨_, _, _, h5⟩
          simp at h5
        · simp only [isOk_ok, true_iff, hge]
          refine ⟨by omega, by omega, by omega, rfl⟩
  · simp only [conversation_context_rule_init]
    split
    · next h =>
      simp only [isOk_error, Bool.false_eq_true, false_iff]
      rintro ⟨h1, _, _⟩
      omega
    · next h =>
      split
      · next h2 =>
        simp only [Bool.or_eq_true, decide_eq_true_eq] at h2
        simp only [isOk_error, Bool.false_eq_true, false_iff]
        rintro ⟨_, h3, h4⟩
        omega
      · next h2 =>
        simp only [Bool.or_eq_true, decide_eq_true_eq, not_or] at h2
        simp only [isOk_ok, true_iff]
        refine ⟨by omega, by omega, by omega⟩
  · simp only [message_length_rule_update_thresholds]
    split
    · next h =>
      simp only [isOk_error, Bool.false_eq_true, false_iff]
      rintro ⟨h1, _, _⟩
      omega
    · next h =>
      split
      · next h2 =>
        simp only [Bool.or_eq_true, decide_eq_true_eq] at h2
        simp only [isOk_error, Bool.false_eq_true, false_iff]
        rintro ⟨_, h3, h4⟩
        omega
      · next h2 =>
        simp only [Bool.or_eq_true, decide_eq_true_eq, not_or] at h2
        simp only [isOk_ok, true_iff]
        refine ⟨by omega, by omega, by omega⟩
  · simp only [conversation_context_rule_update_thresholds]
    split
    · next h =>
      simp only [isOk_error, Bool.false_eq_true, false_iff]
      rintro ⟨h1, _, _⟩
      omega
    · next h =>
      split
      · next h2 =>
        simp only [Bool.or_eq_true, decide_eq_true_eq] at h2
        simp only [isOk_error, Bool.false_eq_true, false_iff]
        rintro ⟨_, h3, h4⟩
        omega
      · next h2 =>
        simp only [Bool.or_eq_true, decide_eq_true_eq, not_or] at h2
        simp only [isOk_ok, true_iff]
        refine ⟨by omega, by omega, by omega⟩

end Deimos

namespace Deimos

/-- Claim C8: at a measured count exactly equal to the low threshold
MessageLengthRule selects the medium bucket and ConversationContextRule
the developing bucket; at the high threshold they select the long and deep
buckets; and with thresholds one hundred and five hundred, content of
exactly one hundred tokens yields the medium target with the trigger
medium_message_100_tokens. -/
theorem threshold_boundary_law (tok : String → Nat) (name : String)
    (s l : Int) (m1 m2 m3 : Target) (cn cd : Int)
    (n1 n2 n3 : Target) (req : Request)
    (hsl : s < l) (hcd : cn < cd) :
    ((user_token_count tok req : Int) = s →
       evaluate (.msgLenR name s l m1 m2 m3 tok) req =
         ⟨m2.toDValue, some ("medium_message_" ++
            toString (user_token_count tok req) ++ "_tokens")⟩) ∧
    ((user_token_count tok req : Int) = l →
       evaluate (.msgLenR name s l m1 m2 m3 tok) req =
         ⟨m3.toDValue, some ("long_message_" ++
            toString (user_token_count tok req) ++ "_tokens")⟩) ∧
    (((analyze_conversation req.messages).1 : Int) = cn →
       evaluate (.convCtxR name cn cd n1 n2 n3) req =
         ⟨n2.toDValue, some ("developing_conversation_" ++
            toString (analyze_conversation req.messages).1 ++
            "_messages_" ++
            toString (analyze_conversation req.messages).2 ++ "_chars")⟩) ∧
    (((analyze_conversation req.messages).1 : Int) = cd →
       evaluate (.convCtxR name cn cd n1 n2 n3) req =
         ⟨n3.toDValue, some ("deep_conversation_" ++
            toString (analyze_conversation req.messages).1 ++
            "_messages_" ++
            toString (analyze_conversation req.messages).2 ++ "_chars")⟩) ∧
    ((user_token_count tok req : Int) = 100 →
       evaluate (.msgLenR name 100 500 m1 m2 m3 tok) req =
         ⟨m2.toDValue, some "medium_message_100_tokens"⟩) := by
  refine ⟨?_, ?_, ?_, ?_, ?_⟩
  · intro h
    have h2 : ((count_tokens tok (String.intercalate "\n"
        (extract_user_texts req.messages)) : Nat) : Int) = s := h
    show (evaluateS _ _).1 = _
    simp only [evaluateS]
    rw [if_neg (by omega), if_pos (by omega)]
    rfl
  · intro h
    have h2 : ((count_tokens tok (String.intercalate "\n"
        (extract_user_texts req.messages)) : Nat) : Int) = l := h
    show (evaluateS _ _).1 = _
    simp only [evaluateS]
    rw [if_neg (by omega), if_neg (by omega)]
    rfl
  · intro h
    show (evaluateS _ _).1 = _
    simp only [evaluateS]
    rw [if_neg (by omega), if_pos (by omega)]
  · intro h
    show (evaluateS _ _).1 = _
    simp only [evaluateS]
    rw [if_neg (by omega), if_neg (by omega)]
  · intro h
    have h100 : user_token_count tok req = 100 := by exact_mod_cast h
    have h2 : ((count_tokens tok (String.intercalate "\n"
        (extract_user_texts req.messages)) : Nat) : Int) = 100 := h
    show (evaluateS _ _).1 = _
    simp only [evaluateS]
    rw [if_neg (by omega), if_pos (by omega)]
    show Decision.mk _ (some ("medium_message_" ++
      toString (user_token_count tok req) ++ "_tokens")) = _
    rw [h100]
    rfl

/-- Claim C8 (witness): a constant token counter measuring one hundred on
a single user message, and a two-message conversation at the developing
threshold. -/
theorem threshold_boundary_law_witness :
    evaluate (.msgLenR "m" 100 500 (.modelT "s") (.modelT "md")
        (.modelT "lg") (fun _ => 100))
        ⟨[.msg (some "user") (some (.str "hello"))], none, []⟩ =
      ⟨.str "md", some "medium_message_100_tokens"⟩ ∧
    evaluate (.convCtxR "c" 2 5 (.modelT "n") (.modelT "d") (.modelT "p"))
        ⟨[.msg (some "user") (some (.str "hi")),
          .msg (some "assistant") (some (.str "yo"))], none, []⟩ =
      ⟨.str "d", some "developing_conversation_2_messages_4_chars"⟩ := by
  constructor
  · exact (threshold_boundary_law (fun _ => 100) "m" 100 500
      (.modelT "s") (.modelT "md") (.modelT "lg") 2 5
      (.modelT "n") (.modelT "d") (.modelT "p")
      ⟨[.msg (some "user") (some (.str "hello"))], none, []⟩
      (by decide) (by decide)).2.2.2.2 (by decide)
  · exact (threshold_boundary_law (fun _ => 100) "c" 100 500
      (.modelT "s") (.modelT "md") (.modelT "lg") 2 5
      (.modelT "n") (.modelT "d") (.modelT "p")
      ⟨[.msg (some "user") (some (.str "hi")),
        .msg (some "assistant") (some (.str "yo"))], none, []⟩
      (by decide) (by decide)).2.2.1 (by decide)

end Deimos

namespace Deimos

set_option maxHeartbeats 4000000 in
/-- Claim C3: CodeRule joins all string message contents with newlines,
counts matches of the code and natural-language pattern families, and
decides by exactly the claimed ordered cascade (with the ratio step stated
as an exact rational comparison); on the single message def f(x) colon
newline indented return x plus one, the rule returns the code target with
the code-detected trigger. -/
theorem code_rule_cascade_and_scenario :
    (∀ cm ncm, containsCodeCounts cm ncm = spec_code_decision cm ncm) ∧
    (∀ (n : String) (code notCode : Target) (req : Request),
       evaluate (.codeR n code notCode) req
         = spec_code_evaluate code notCode req) ∧
    evaluate (.codeR "detector" (.modelT "A") (.modelT "B"))
        scenario_code_request = ⟨.str "A", some "code_detected"⟩ := by
  refine ⟨containsCodeCounts_eq_spec, code_evaluate_eq_spec, ?_⟩
  decide

end Deimos
